import Mathlib

/-!
Shallow embedding of the creator-score leaderboard route handler
(the `GET` route: query construction, score extraction, sorting,
rank assignment, stats aggregation with fallback, and error paths).

Modelling conventions:
* JS numbers appearing as scores/points are `Int`; counts are `Nat`.
* A JS `null`/`undefined` value is `Option.none`; `NaN` produced by
  `parseInt` is modelled as `Option.none` for the parsed number.
* The two outbound `fetch` calls are oracles (`FetchOutcome`): a call
  either throws, returns a non-ok HTTP response, or returns parsed JSON.
* `GET` returns its response together with the list of provider
  requests it issued, so that "no call" and "no retry" are provable.
-/

set_option maxRecDepth 8000

/-- One scoring dimension of a raw profile: `{slug, points}` with
`points` possibly missing or null. -/
structure ScoreEntry where
  slug : String
  points : Option Int
deriving DecidableEq

/-- Raw profile record as typed in the route (`type Profile`). -/
structure Profile where
  id : String
  display_name : Option String
  name : Option String
  image_url : Option String
  scores : Option (List ScoreEntry)
deriving DecidableEq

/-- Provider pagination object; `total` may be absent. -/
structure Pagination where
  total : Option Nat
deriving DecidableEq

/-- Parsed JSON body of a successful provider response. -/
structure ProviderResponse where
  profiles : Option (List Profile)
  pagination : Option Pagination
deriving DecidableEq

/-- Outcome of one `fetch` to the provider: the promise rejected (or a
later `.json()` parse threw), the response carried a non-success
status, or it succeeded with a parsed body. -/
inductive FetchOutcome where
  | thrown
  | httpError (status : Nat) (body : String)
  | success (json : ProviderResponse)
deriving DecidableEq

/-- Inbound search parameters; `none` models an absent parameter. -/
structure Params where
  page : Option String
  per_page : Option String
  perPage : Option String
  statsOnly : Option String
deriving DecidableEq

/-- JS `x || d` for a nullable string: `null` and `""` are falsy. -/
def jsOrStr (x : Option String) (d : String) : String :=
  match x with
  | some s => if s = "" then d else s
  | none => d

/-- JS `x || undefined` for a nullable string. -/
def jsOrUndef (x : Option String) : Option String :=
  match x with
  | some s => if s = "" then none else some s
  | none => none

/-- JS `x || d` for a possibly-absent count: `undefined` and `0` are falsy. -/
def jsOrNat (x : Option Nat) (d : Nat) : Nat :=
  match x with
  | some t => if t = 0 then d else t
  | none => d

/-- Whitespace skipped by JS `parseInt`. -/
def isJsSpace (c : Char) : Bool :=
  c == ' ' || c == '\t' || c == '\n' || c == '\r'

/-- Numeric value of a decimal digit character. -/
def digitVal (c : Char) : Nat := c.toNat - 48

/-- JS `parseInt(s, 10)`: skip leading whitespace, optional sign, then
the longest prefix of decimal digits; `none` models the `NaN` result
when no digit is found. -/
def parseIntJS (s : String) : Option Int :=
  let cs := s.toList.dropWhile isJsSpace
  let signed : Bool × List Char :=
    match cs with
    | '-' :: rest => (true, rest)
    | '+' :: rest => (false, rest)
    | _ => (false, cs)
  let ds := signed.2.takeWhile Char.isDigit
  if ds = [] then none
  else
    let n : Nat := ds.foldl (fun acc c => 10 * acc + digitVal c) 0
    some (if signed.1 then -(n : Int) else (n : Int))

/-- `parseInt(searchParams.get("page") || "1", 10)`. -/
def pageOf (p : Params) : Option Int :=
  parseIntJS (jsOrStr p.page "1")

/-- `parseInt(searchParams.get("per_page") || searchParams.get("perPage") || "25", 10)`. -/
def perPageOf (p : Params) : Option Int :=
  parseIntJS (jsOrStr p.per_page (jsOrStr p.perPage "25"))

/-- `searchParams.get("statsOnly") === "true"`. -/
def statsOnlyOf (p : Params) : Bool :=
  p.statsOnly == some "true"

/-- Score filter `{min, scorer}` of a provider query. -/
structure QueryDesc where
  min : Int
  scorer : String
deriving DecidableEq

/-- Primary sort key: `{order, scorer}` on the score. -/
structure SortScore where
  order : String
  scorer : String
deriving DecidableEq

/-- Secondary sort key: `{order}` on the identifier. -/
structure SortId where
  order : String
deriving DecidableEq

/-- Sort specification `{score: {...}, id: {...}}` of the listing query. -/
structure SortDesc where
  score : SortScore
  id : SortId
deriving DecidableEq

/-- The query descriptor serialized into one provider request:
filter, optional sort, and pagination.  `page`/`per_page` are
`Option Int` because `parseInt` may have produced `NaN`. -/
structure RequestDesc where
  query : QueryDesc
  sort : Option SortDesc
  page : Option Int
  per_page : Option Int
deriving DecidableEq

/-- The `data` object built for the listing fetch: score filter
`{min: 1, scorer: "Creator Score"}`, sort by score descending then id
descending, and the caller's pagination passed through. -/
def buildListingRequest (page perPage : Option Int) : RequestDesc :=
  { query := { min := 1, scorer := "Creator Score" }
    sort := some { score := { order := "desc", scorer := "Creator Score" }, id := { order := "desc" } }
    page := page
    per_page := perPage }

/-- The eligible-count request: `{min: 80, scorer: "Creator Score"}`,
page 1, page size 1, no sort. -/
def buildEligibleRequest : RequestDesc :=
  { query := { min := 80, scorer := "Creator Score" }
    sort := none
    page := some 1
    per_page := some 1 }

/-- `p.scores.filter(s => s.slug === "creator_score").map(s => s.points ?? 0)`,
with a non-array `scores` giving `[]`. -/
def matchingPoints (p : Profile) : List Int :=
  ((p.scores.getD []).filter fun s => s.slug == "creator_score").map fun s => s.points.getD 0

/-- `creatorScores.length > 0 ? Math.max(...creatorScores) : 0`. -/
def extractScore (p : Profile) : Int :=
  match matchingPoints p with
  | [] => 0
  | x :: xs => xs.foldl max x

/-- Entry produced by the per-profile mapping step (before ranking). -/
structure MappedEntry where
  name : String
  pfp : Option String
  score : Int
  rewards : String
  id : String
  talent_protocol_id : String
deriving DecidableEq

/-- The mapping step of the listing pipeline (one raw profile to one
leaderboard entry, rank not yet assigned). -/
def mapProfile (p : Profile) : MappedEntry :=
  { name := jsOrStr p.display_name (jsOrStr p.name "Unknown")
    pfp := jsOrUndef p.image_url
    score := extractScore p
    rewards := "-"
    id := p.id
    talent_protocol_id := p.id }

/-- Comparator order of `mapped.sort((a, b) => b.score - a.score)`:
`a` may precede `b` exactly when `b.score ≤ a.score`. -/
def scoreGe (a b : MappedEntry) : Prop := b.score ≤ a.score

instance : DecidableRel scoreGe :=
  fun a b => inferInstanceAs (Decidable (b.score ≤ a.score))

instance : IsTotal MappedEntry scoreGe :=
  ⟨fun a b => le_total b.score a.score⟩

instance : IsTrans MappedEntry scoreGe :=
  ⟨fun _ _ _ h1 h2 => le_trans h2 h1⟩

/-- `mapped.sort((a, b) => b.score - a.score)`: JS `Array.prototype.sort`
is a stable sort, and for a consistent comparator every stable sort
produces the same sequence, here realized by a stable insertion sort. -/
def sortEntries (l : List MappedEntry) : List MappedEntry :=
  List.insertionSort scoreGe l

/-- A mapped entry together with its assigned rank (`{...entry, rank}`). -/
structure RankedEntry extends MappedEntry where
  rank : Nat
deriving DecidableEq

/-- The rank-assignment pass of the route, as a recursion over the
remaining entries carrying the mutable loop state `lastScore`
(initially `null`), `lastRank`, `ties`, and the element index. -/
def rankEntriesGo (lastScore : Option Int) (lastRank ties idx : Nat) :
    List MappedEntry → List RankedEntry
  | [] => []
  | e :: rest =>
    if some e.score = lastScore then
      { toMappedEntry := e, rank := lastRank } ::
        rankEntriesGo lastScore lastRank (ties + 1) (idx + 1) rest
    else
      let rank := if ties > 0 then lastRank + ties else idx + 1
      { toMappedEntry := e, rank := rank } ::
        rankEntriesGo (some e.score) rank 1 (idx + 1) rest

/-- The rank-assignment pass started from the initial state
`lastScore = null, lastRank = 0, ties = 0`. -/
def rankEntries (l : List MappedEntry) : List RankedEntry :=
  rankEntriesGo none 0 0 0 l

/-- The same rank-assignment recursion on bare score sequences. -/
def assignRanksGo (lastScore : Option Int) (lastRank ties idx : Nat) :
    List Int → List Nat
  | [] => []
  | s :: rest =>
    if some s = lastScore then
      lastRank :: assignRanksGo lastScore lastRank (ties + 1) (idx + 1) rest
    else
      let rank := if ties > 0 then lastRank + ties else idx + 1
      rank :: assignRanksGo (some s) rank 1 (idx + 1) rest

/-- Rank sequence assigned to a score sequence. -/
def assignRanks (l : List Int) : List Nat :=
  assignRanksGo none 0 0 0 l

/-- Listing pipeline: map each profile, sort by score descending,
assign ranks. -/
def listingPipeline (j : ProviderResponse) : List RankedEntry :=
  rankEntries (sortEntries ((j.profiles.getD []).map mapProfile))

/-- Response body of the route: `{error, status}`, a stats body
`{minScore, totalCreators, eligibleCreators}`, or a listing body
`{entries, minScore, totalCreators}`. -/
inductive GetResult where
  | errorResp (error : String) (status : Nat)
  | statsResp (minScore totalCreators eligibleCreators : Nat)
  | listResp (entries : List RankedEntry) (minScore totalCreators : Nat)
deriving DecidableEq

/-- Either the handler itself rejected (unhandled throw of the primary
fetch) or it returned a response. -/
inductive GetRet where
  | thrown
  | done (r : GetResult)
deriving DecidableEq

/-- Handler result plus the trace of provider requests it issued. -/
structure GetOutput where
  result : GetRet
  calls : List RequestDesc
deriving DecidableEq

/-- `json.pagination?.total`. -/
def totalOf (j : ProviderResponse) : Option Nat :=
  j.pagination.bind Pagination.total

/-- The route handler `GET`, with the credential, the inbound search
parameters, and the outcomes of its (at most two) provider fetches as
inputs. -/
def GET (apiKey : Option String) (p : Params) (primary eligibleFetch : FetchOutcome) :
    GetOutput :=
  match apiKey with
  | none => { result := .done (.errorResp "Missing Talent API key" 500), calls := [] }
  | some _ =>
    let req := buildListingRequest (pageOf p) (perPageOf p)
    match primary with
    | .thrown => { result := .thrown, calls := [req] }
    | .httpError status body =>
      { result := .done (.errorResp body status), calls := [req] }
    | .success json =>
      if statsOnlyOf p then
        let totalCreators := jsOrNat (totalOf json) 0
        match eligibleFetch with
        | .thrown =>
          { result := .done (.statsResp 100 totalCreators (3 * totalCreators / 10))
            calls := [req, buildEligibleRequest] }
        | .httpError _ _ =>
          { result := .done (.statsResp 100 totalCreators 0)
            calls := [req, buildEligibleRequest] }
        | .success ej =>
          { result := .done (.statsResp 100 totalCreators (jsOrNat (totalOf ej) 0))
            calls := [req, buildEligibleRequest] }
      else
        let ranked := listingPipeline json
        { result := .done (.listResp ranked 100 (jsOrNat (totalOf json) ranked.length))
          calls := [req] }

/-- Mapped entry with only an id and a score, for concrete rank examples. -/
def mkE (id : String) (score : Int) : MappedEntry :=
  { name := "Unknown", pfp := none, score := score, rewards := "-"
    id := id, talent_protocol_id := id }

/-- Profile whose matching entries carry points 50 and 80, plus a
non-matching 999 entry. -/
def exHigh : Profile :=
  ⟨"p", none, none, none,
    some [⟨"creator_score", some 50⟩, ⟨"creator_score", some 80⟩, ⟨"other", some 999⟩]⟩

/-- Profile with no entry matching the configured slug. -/
def exNoMatch : Profile := ⟨"q", none, none, none, some [⟨"other", some 999⟩]⟩

/-- Request with no search parameters set. -/
def emptyParams : Params := ⟨none, none, none, none⟩

/-- Request with `statsOnly=true` and nothing else. -/
def statsParams : Params := ⟨none, none, none, some "true"⟩

/-- Provider body reporting a total population of 1000. -/
def total1000 : ProviderResponse := ⟨none, some ⟨some 1000⟩⟩

/-- Profile with a single matching score entry of negative points. -/
def negProfile : Profile :=
  ⟨"p1", none, none, none, some [⟨"creator_score", some (-1)⟩]⟩

/-- Provider body holding only `negProfile` and no pagination. -/
def negResponse : ProviderResponse := ⟨some [negProfile], none⟩

/-- Profile named Ann with one matching entry of 5 points. -/
def annProfile : Profile :=
  ⟨"p1", some "Ann", none, none, some [⟨"creator_score", some 5⟩]⟩

/-- Provider body holding only `annProfile`. -/
def annResponse : ProviderResponse := ⟨some [annProfile], none⟩

/-- Request carrying the non-numeric page parameter `"abc"`. -/
def abcParams : Params := ⟨some "abc", none, none, none⟩

/-- Provider body with no profiles and a reported total of 7. -/
def total7 : ProviderResponse := ⟨none, some ⟨some 7⟩⟩

/-- The start value is a lower bound of a left max-fold. -/
lemma foldl_max_le_init (xs : List Int) : ∀ a : Int, a ≤ xs.foldl max a := by
  induction xs with
  | nil => intro a; exact le_refl a
  | cons x xs ih => intro a; exact le_trans (le_max_left a x) (ih (max a x))

/-- Every list element is a lower bound of a left max-fold. -/
lemma foldl_max_of_mem (xs : List Int) : ∀ (a x : Int), x ∈ xs → x ≤ xs.foldl max a := by
  induction xs with
  | nil => intro a x hx; cases hx
  | cons y ys ih =>
    intro a x hx
    rcases List.mem_cons.mp hx with h | h
    · subst h; exact le_trans (le_max_right a x) (foldl_max_le_init ys (max a x))
    · exact ih (max a y) x h

/-- A left max-fold returns its start value or a list element. -/
lemma foldl_max_mem (xs : List Int) : ∀ a : Int, xs.foldl max a = a ∨ xs.foldl max a ∈ xs := by
  induction xs with
  | nil => intro a; left; rfl
  | cons y ys ih =>
    intro a
    rw [List.foldl_cons]
    rcases ih (max a y) with h | h
    · rcases max_choice a y with h2 | h2
      · left; rw [h, h2]
      · right; rw [h, h2]; exact List.mem_cons_self y ys
    · right; exact List.mem_cons_of_mem y h

/-- The extracted score is 0 when no score entry matches, and otherwise
is a matching entry's value that bounds all matching values. -/
lemma extractScore_max (p : Profile) :
    (matchingPoints p = [] → extractScore p = 0) ∧
    (matchingPoints p ≠ [] →
      extractScore p ∈ matchingPoints p ∧ ∀ y ∈ matchingPoints p, y ≤ extractScore p) := by
  cases hm : matchingPoints p with
  | nil =>
    constructor
    · intro _
      unfold extractScore
      rw [hm]
    · intro hne; exact absurd rfl hne
  | cons x xs =>
    constructor
    · intro h0; exact absurd h0 (List.cons_ne_nil x xs)
    · intro _
      have he : extractScore p = xs.foldl max x := by
        unfold extractScore
        rw [hm]
      constructor
      · rw [he]
        rcases foldl_max_mem xs x with h2 | h2
        · rw [h2]; exact List.mem_cons_self x xs
        · exact List.mem_cons_of_mem x h2
      · intro y hy
        rw [he]
        rcases List.mem_cons.mp hy with h2 | h2
        · subst h2; exact foldl_max_le_init xs y
        · exact foldl_max_of_mem xs x y h2

/-- The extracted score is non-negative whenever every matching score
entry carries non-negative points (missing points counting as 0). -/
lemma extractScore_nonneg {p : Profile}
    (h : ∀ s ∈ p.scores.getD [], s.slug = "creator_score" → 0 ≤ s.points.getD 0) :
    0 ≤ extractScore p := by
  have hall : ∀ y ∈ matchingPoints p, 0 ≤ y := by
    intro y hy
    unfold matchingPoints at hy
    rcases List.mem_map.mp hy with ⟨s, hs, rfl⟩
    rcases List.mem_filter.mp hs with ⟨hmem, hslug⟩
    exact h s hmem (by simpa using hslug)
  cases hm : matchingPoints p with
  | nil => exact le_of_eq ((extractScore_max p).1 hm).symm
  | cons x xs =>
    have hne : matchingPoints p ≠ [] := by rw [hm]; simp
    obtain ⟨hmem, _⟩ := (extractScore_max p).2 hne
    exact hall _ hmem

/-- The rank pass preserves list length. -/
lemma assignRanksGo_length :
    ∀ (l : List Int) (ls : Option Int) (lr t i : Nat),
      (assignRanksGo ls lr t i l).length = l.length := by
  intro l
  induction l with
  | nil => intro ls lr t i; rfl
  | cons s rest ih =>
    intro ls lr t i
    simp only [assignRanksGo]
    split
    · simp [ih]
    · simp [ih]

/-- Invariant of the rank pass from a consistent mid-stream state: the
state reached after a first tied group satisfies `lastRank + ties = idx + 1`
with at least one tie recorded, and from such a state the produced rank
sequence starts with `lastRank` on a tie and `idx + 1` on a new score,
assigns equal consecutive ranks exactly to equal consecutive scores, and
gives an entry with a new score its 1-based overall position. -/
lemma assignRanksGo_spec :
    ∀ (l : List Int) (s0 : Int) (lr t i : Nat), 1 ≤ t → lr + t = i + 1 →
      ((∀ a : Int, l[0]? = some a →
          (assignRanksGo (some s0) lr t i l)[0]? = some (if a = s0 then lr else i + 1)) ∧
       (∀ (k : Nat) (a b : Int) (ra rb : Nat),
          l[k]? = some a → l[k + 1]? = some b →
          (assignRanksGo (some s0) lr t i l)[k]? = some ra →
          (assignRanksGo (some s0) lr t i l)[k + 1]? = some rb →
          ((rb = ra ↔ b = a) ∧ (b ≠ a → rb = i + k + 2)))) := by
  intro l
  induction l with
  | nil =>
    intro s0 lr t i ht hc
    constructor
    · intro a ha; simp at ha
    · intro k a b ra rb ha; simp at ha
  | cons c rest ih =>
    intro s0 lr t i ht hc
    by_cases hcs : c = s0
    · subst hcs
      have hout : assignRanksGo (some c) lr t i (c :: rest)
          = lr :: assignRanksGo (some c) lr (t + 1) (i + 1) rest := by
        simp [assignRanksGo]
      have ih' := ih c lr (t + 1) (i + 1) (by omega) (by omega)
      constructor
      · intro a ha
        rw [List.getElem?_cons_zero] at ha
        obtain rfl : c = a := by exact Option.some.inj ha
        rw [hout, List.getElem?_cons_zero, if_pos rfl]
      · intro k a b ra rb ha hb hra hrb
        cases k with
        | zero =>
          rw [List.getElem?_cons_zero] at ha
          obtain rfl : c = a := Option.some.inj ha
          rw [List.getElem?_cons_succ] at hb
          rw [hout, List.getElem?_cons_zero] at hra
          obtain rfl : lr = ra := Option.some.inj hra
          rw [hout, List.getElem?_cons_succ] at hrb
          have hhead := ih'.1 b hb
          rw [hrb] at hhead
          by_cases hba : b = c
          · rw [if_pos hba] at hhead
            obtain rfl : rb = lr := Option.some.inj hhead
            exact ⟨⟨fun _ => hba, fun _ => rfl⟩, fun hne => absurd hba hne⟩
          · rw [if_neg hba] at hhead
            obtain rfl : rb = i + 1 + 1 := Option.some.inj hhead
            constructor
            · constructor
              · intro h; omega
              · intro h; exact absurd h hba
            · intro _; omega
        | succ m =>
          rw [List.getElem?_cons_succ] at ha hb
          rw [hout, List.getElem?_cons_succ] at hra hrb
          obtain ⟨hiff, hpos⟩ := ih'.2 m a b ra rb ha hb hra hrb
          exact ⟨hiff, fun hne => by have := hpos hne; omega⟩
    · have hrv : (if t > 0 then lr + t else i + 1) = i + 1 := by
        rw [if_pos (by omega : t > 0)]; omega
      have hout : assignRanksGo (some s0) lr t i (c :: rest)
          = (i + 1) :: assignRanksGo (some c) (i + 1) 1 (i + 1) rest := by
        simp only [assignRanksGo]
        rw [if_neg (by simpa using hcs)]
        rw [hrv]
      have ih' := ih c (i + 1) 1 (i + 1) (le_refl 1) rfl
      constructor
      · intro a ha
        rw [List.getElem?_cons_zero] at ha
        obtain rfl : c = a := Option.some.inj ha
        rw [hout, List.getElem?_cons_zero, if_neg hcs]
      · intro k a b ra rb ha hb hra hrb
        cases k with
        | zero =>
          rw [List.getElem?_cons_zero] at ha
          obtain rfl : c = a := Option.some.inj ha
          rw [List.getElem?_cons_succ] at hb
          rw [hout, List.getElem?_cons_zero] at hra
          obtain rfl : i + 1 = ra := Option.some.inj hra
          rw [hout, List.getElem?_cons_succ] at hrb
          have hhead := ih'.1 b hb
          rw [hrb] at hhead
          by_cases hba : b = c
          · rw [if_pos hba] at hhead
            obtain rfl : rb = i + 1 := Option.some.inj hhead
            exact ⟨⟨fun _ => hba, fun _ => rfl⟩, fun hne => absurd hba hne⟩
          · rw [if_neg hba] at hhead
            obtain rfl : rb = i + 1 + 1 := Option.some.inj hhead
            constructor
            · constructor
              · intro h; omega
              · intro h; exact absurd h hba
            · intro _; omega
        | succ m =>
          rw [List.getElem?_cons_succ] at ha hb
          rw [hout, List.getElem?_cons_succ] at hra hrb
          obtain ⟨hiff, hpos⟩ := ih'.2 m a b ra rb ha hb hra hrb
          exact ⟨hiff, fun hne => by have := hpos hne; omega⟩

/-- Rank sequences from the initial state: same length as the input,
first rank 1, equal consecutive ranks exactly for equal consecutive
scores, and the 1-based position as rank on every score change. -/
lemma assignRanks_spec (l : List Int) :
    (assignRanks l).length = l.length ∧
    (∀ a : Int, l[0]? = some a → (assignRanks l)[0]? = some 1) ∧
    (∀ (k : Nat) (a b : Int) (ra rb : Nat),
       l[k]? = some a → l[k + 1]? = some b →
       (assignRanks l)[k]? = some ra → (assignRanks l)[k + 1]? = some rb →
       ((rb = ra ↔ b = a) ∧ (b ≠ a → rb = k + 2))) := by
  cases l with
  | nil =>
    refine ⟨rfl, ?_, ?_⟩
    · intro a ha; simp at ha
    · intro k a b ra rb ha; simp at ha
  | cons c rest =>
    have hout : assignRanks (c :: rest) = 1 :: assignRanksGo (some c) 1 1 1 rest := by
      simp [assignRanks, assignRanksGo]
    have hspec := assignRanksGo_spec rest c 1 1 1 (le_refl 1) rfl
    refine ⟨?_, ?_, ?_⟩
    · rw [hout]
      simp [assignRanksGo_length]
    · intro a ha
      rw [hout, List.getElem?_cons_zero]
    · intro k a b ra rb ha hb hra hrb
      rw [hout] at hra hrb
      cases k with
      | zero =>
        rw [List.getElem?_cons_zero] at ha
        obtain rfl : c = a := Option.some.inj ha
        rw [List.getElem?_cons_succ] at hb
        rw [List.getElem?_cons_zero] at hra
        obtain rfl : 1 = ra := Option.some.inj hra
        rw [List.getElem?_cons_succ] at hrb
        have hhead := hspec.1 b hb
        rw [hrb] at hhead
        by_cases hba : b = c
        · rw [if_pos hba] at hhead
          obtain rfl : rb = 1 := Option.some.inj hhead
          exact ⟨⟨fun _ => hba, fun _ => rfl⟩, fun hne => absurd hba hne⟩
        · rw [if_neg hba] at hhead
          obtain rfl : rb = 1 + 1 := Option.some.inj hhead
          constructor
          · constructor
            · intro h; omega
            · intro h; exact absurd h hba
          · intro _; omega
      | succ m =>
        rw [List.getElem?_cons_succ] at ha hb hra hrb
        obtain ⟨hiff, hpos⟩ := hspec.2 m a b ra rb ha hb hra hrb
        exact ⟨hiff, fun hne => by have := hpos hne; omega⟩

/-- The ranks assigned to entries are the ranks assigned to their
score sequence. -/
lemma rankEntriesGo_map_rank :
    ∀ (l : List MappedEntry) (ls : Option Int) (lr t i : Nat),
      (rankEntriesGo ls lr t i l).map RankedEntry.rank
        = assignRanksGo ls lr t i (l.map MappedEntry.score) := by
  intro l
  induction l with
  | nil => intros; rfl
  | cons e rest ih =>
    intro ls lr t i
    simp only [List.map_cons, rankEntriesGo, assignRanksGo]
    by_cases h : some e.score = ls
    · rw [if_pos h, if_pos h]
      simp [ih]
    · rw [if_neg h, if_neg h]
      simp [ih]

/-- Forgetting ranks recovers the input entries in order. -/
lemma rankEntriesGo_map_toMapped :
    ∀ (l : List MappedEntry) (ls : Option Int) (lr t i : Nat),
      (rankEntriesGo ls lr t i l).map RankedEntry.toMappedEntry = l := by
  intro l
  induction l with
  | nil => intros; rfl
  | cons e rest ih =>
    intro ls lr t i
    simp only [rankEntriesGo]
    by_cases h : some e.score = ls
    · rw [if_pos h]
      simp [ih]
    · rw [if_neg h]
      simp [ih]

/-- Ranking preserves the number of entries. -/
lemma rankEntries_length (l : List MappedEntry) : (rankEntries l).length = l.length := by
  have h := congrArg List.length (rankEntriesGo_map_toMapped l none 0 0 0)
  simpa using h

/-- Every ranked entry comes from an input entry. -/
lemma rankEntries_mem {l : List MappedEntry} {e : RankedEntry} (h : e ∈ rankEntries l) :
    e.toMappedEntry ∈ l := by
  have h2 := List.mem_map_of_mem RankedEntry.toMappedEntry h
  rwa [show (rankEntries l).map RankedEntry.toMappedEntry = l from
    rankEntriesGo_map_toMapped l none 0 0 0] at h2

/-- The sorted entry list is non-increasing in score, entry to entry. -/
lemma sortEntries_chain (l : List MappedEntry) : (sortEntries l).Chain' scoreGe :=
  (List.sorted_insertionSort scoreGe l).chain'

/-- The listing pipeline only emits sequences that are non-increasing
in score. -/
lemma listingPipeline_chain (j : ProviderResponse) :
    (listingPipeline j).Chain' fun a b => b.score ≤ a.score := by
  have h1 : (sortEntries ((j.profiles.getD []).map mapProfile)).Chain' scoreGe :=
    sortEntries_chain _
  rw [show sortEntries ((j.profiles.getD []).map mapProfile)
      = (listingPipeline j).map RankedEntry.toMappedEntry from
    (rankEntriesGo_map_toMapped _ none 0 0 0).symm] at h1
  exact (List.chain'_map RankedEntry.toMappedEntry).mp h1

/-- C1: on a score-sorted entry sequence, the rank pass outputs a
parallel sequence of the same length whose first rank is 1, in which
consecutive entries share a rank exactly when they share a score and an
entry with a new score gets its 1-based position as rank; scores
90,90,80,70 give ranks 1,1,3,4, an empty input gives an empty output,
and a single entry gets rank 1. -/
theorem c1_rank_assignment :
    (∀ l : List MappedEntry, l.Chain' (fun a b => b.score ≤ a.score) →
       ((rankEntries l).length = l.length ∧
        (∀ e : MappedEntry, l[0]? = some e →
           ((rankEntries l).map RankedEntry.rank)[0]? = some 1) ∧
        (∀ (k : Nat) (a b : MappedEntry) (ra rb : Nat),
           l[k]? = some a → l[k + 1]? = some b →
           ((rankEntries l).map RankedEntry.rank)[k]? = some ra →
           ((rankEntries l).map RankedEntry.rank)[k + 1]? = some rb →
           ((rb = ra ↔ b.score = a.score) ∧ (b.score ≠ a.score → rb = k + 2))))) ∧
    (rankEntries [mkE "a" 90, mkE "b" 90, mkE "c" 80, mkE "d" 70]).map RankedEntry.rank
      = [1, 1, 3, 4] ∧
    rankEntries [] = [] ∧
    (∀ e : MappedEntry, (rankEntries [e]).map RankedEntry.rank = [1]) := by
  refine ⟨?_, by decide, rfl, ?_⟩
  · intro l _
    have hmap : (rankEntries l).map RankedEntry.rank = assignRanks (l.map MappedEntry.score) :=
      rankEntriesGo_map_rank l none 0 0 0
    have hspec := assignRanks_spec (l.map MappedEntry.score)
    refine ⟨rankEntries_length l, ?_, ?_⟩
    · intro e he
      have h0 : (l.map MappedEntry.score)[0]? = some e.score := by
        rw [List.getElem?_map, he]
        rfl
      rw [hmap]
      exact hspec.2.1 e.score h0
    · intro k a b ra rb ha hb hra hrb
      rw [hmap] at hra hrb
      have ha' : (l.map MappedEntry.score)[k]? = some a.score := by
        rw [List.getElem?_map, ha]
        rfl
      have hb' : (l.map MappedEntry.score)[k + 1]? = some b.score := by
        rw [List.getElem?_map, hb]
        rfl
      exact hspec.2.2 k a.score b.score ra rb ha' hb' hra hrb
  · intro e
    simp [rankEntries, rankEntriesGo]

/-- Witness for C1 at the sorted four-entry example. -/
theorem c1_witness :
    (rankEntries [mkE "a" 90, mkE "b" 90, mkE "c" 80, mkE "d" 70]).length = 4 :=
  (c1_rank_assignment.1 [mkE "a" 90, mkE "b" 90, mkE "c" 80, mkE "d" 70]
    (by norm_num [List.chain'_cons, mkE])).1

/-- C2: the extracted score of a profile is the maximum of the points
(defaulting missing to 0) of its entries with slug creator_score when
any exist, and 0 otherwise; the 50/80/other-999 example gives 80 and a
profile with no matching slug gives 0. -/
theorem c2_score_extraction :
    (∀ p : Profile,
       (matchingPoints p ≠ [] →
          extractScore p ∈ matchingPoints p ∧ ∀ x ∈ matchingPoints p, x ≤ extractScore p) ∧
       (matchingPoints p = [] → extractScore p = 0)) ∧
    extractScore exHigh = 80 ∧ extractScore exNoMatch = 0 :=
  ⟨fun p => ⟨(extractScore_max p).2, (extractScore_max p).1⟩, by decide, by decide⟩

/-- Witness for C2 at a profile with no matching entry. -/
theorem c2_witness : extractScore exNoMatch = 0 :=
  (c2_score_extraction.1 exNoMatch).2 (by decide)

/-- C3 counterexample: with the primary query reporting total 1000, a
secondary query that fails with a non-success status yields
eligibleCreators 0, not the claimed floor(1000 * 0.3) = 300. -/
theorem c3_counterexample :
    (GET (some "key") statsParams (.success total1000) (.httpError 500 "boom")).result
      = .done (.statsResp 100 1000 0) ∧ (0 : Nat) ≠ 3 * 1000 / 10 := by
  decide

/-- C3 amended: in stats mode with the primary query reporting a
non-zero total T, a secondary query whose fetch throws still succeeds
with minScore 100, totalCreators T and eligibleCreators floor(T * 0.3),
while a secondary query returning a non-success status still succeeds
but with eligibleCreators 0. -/
theorem c3_stats_fallback_amended :
    ∀ (k : String) (p : Params) (j : ProviderResponse) (T : Nat),
      statsOnlyOf p = true → totalOf j = some T → T ≠ 0 →
      ((GET (some k) p (.success j) .thrown).result
          = .done (.statsResp 100 T (3 * T / 10)) ∧
       ∀ (st : Nat) (b : String),
         (GET (some k) p (.success j) (.httpError st b)).result
           = .done (.statsResp 100 T 0)) := by
  intro k p j T hs ht hT
  have hjs : jsOrNat (totalOf j) 0 = T := by
    rw [ht]
    simp [jsOrNat, hT]
  constructor
  · simp [GET, hs, hjs]
  · intro st b
    simp [GET, hs, hjs]

/-- Witness for C3 at total 1000 with a thrown secondary fetch. -/
theorem c3_witness :
    (GET (some "key") statsParams (.success total1000) .thrown).result
      = .done (.statsResp 100 1000 300) :=
  (c3_stats_fallback_amended "key" statsParams total1000 1000 (by decide) (by decide)
    (by decide)).1

/-- C4: a non-success status on the primary fetch makes the handler
return an error response carrying the provider status and body, after
exactly one provider call and with no entries and no stats body. -/
theorem c4_upstream_error :
    ∀ (k : String) (p : Params) (status : Nat) (body : String) (ef : FetchOutcome),
      GET (some k) p (.httpError status body) ef
        = { result := .done (.errorResp body status)
            calls := [buildListingRequest (pageOf p) (perPageOf p)] } := by
  intro k p status body ef
  rfl

/-- C5: without the API key the handler returns the configuration
error with status 500 for all parameters, independent of any provider
behaviour, and issues no provider call. -/
theorem c5_missing_api_key :
    ∀ (p : Params) (primary ef : FetchOutcome),
      GET none p primary ef
        = { result := .done (.errorResp "Missing Talent API key" 500), calls := [] } := by
  intro p primary ef
  rfl

/-- C6: the listing query descriptor is exactly the score filter
min 1 / scorer Creator Score, the sort by score descending for that
scorer with secondary sort by id descending, and the caller's
pagination unchanged; it is a pure construction, and every keyed run
issues it as its first provider call. -/
theorem c6_query_descriptor :
    (∀ page perPage : Option Int,
       (buildListingRequest page perPage).query = { min := 1, scorer := "Creator Score" } ∧
       (buildListingRequest page perPage).sort
         = some { score := { order := "desc", scorer := "Creator Score" }
                  id := { order := "desc" } } ∧
       (buildListingRequest page perPage).page = page ∧
       (buildListingRequest page perPage).per_page = perPage) ∧
    (∀ (k : String) (p : Params) (primary ef : FetchOutcome),
       (GET (some k) p primary ef).calls.head?
         = some (buildListingRequest (pageOf p) (perPageOf p))) := by
  constructor
  · intro page perPage
    exact ⟨rfl, rfl, rfl, rfl⟩
  · intro k p primary ef
    cases primary with
    | thrown => rfl
    | httpError st b => rfl
    | success j =>
      by_cases h : statsOnlyOf p = true
      · cases ef <;> simp [GET, h]
      · simp [GET, h]

/-- C7: every entry sequence returned in listing mode is ordered
non-increasingly by score. -/
theorem c7_sorted_entries :
    ∀ (k : String) (p : Params) (primary ef : FetchOutcome)
      (entries : List RankedEntry) (ms tc : Nat),
      (GET (some k) p primary ef).result = .done (.listResp entries ms tc) →
      entries.Chain' fun a b => b.score ≤ a.score := by
  intro k p primary ef entries ms tc h
  cases primary with
  | thrown => simp [GET] at h
  | httpError st b => simp [GET] at h
  | success j =>
    by_cases hs : statsOnlyOf p = true
    · cases ef <;> simp [GET, hs] at h
    · simp [GET, hs] at h
      obtain ⟨rfl, _, _⟩ := h
      exact listingPipeline_chain j

/-- Witness for C7 at a one-profile provider response. -/
theorem c7_witness :
    List.Chain' (fun a b => b.score ≤ a.score)
      [({ toMappedEntry := { name := "Ann", pfp := none, score := 5, rewards := "-"
                             id := "p1", talent_protocol_id := "p1" }
          rank := 1 } : RankedEntry)] :=
  c7_sorted_entries "key" emptyParams (.success annResponse) .thrown
    [{ toMappedEntry := { name := "Ann", pfp := none, score := 5, rewards := "-"
                          id := "p1", talent_protocol_id := "p1" }
       rank := 1 }] 100 1 (by decide)

/-- C8 counterexample: a provider profile whose matching score entry
has points -1 produces a listing entry with the negative score -1. -/
theorem c8_counterexample :
    (GET (some "key") emptyParams (.success negResponse) .thrown).result
      = .done (.listResp [{ toMappedEntry := { name := "Unknown", pfp := none, score := -1,
                                               rewards := "-", id := "p1",
                                               talent_protocol_id := "p1" }
                            rank := 1 }] 100 1) ∧
    ¬ (0 : Int) ≤ -1 := by
  decide

/-- C8 amended: a listing entry's score is non-negative provided every
matching score entry of the returned profiles has non-negative points
(missing points counting as 0), and a profile with no matching score
entries receives score 0 (the score field always being present in the
model). -/
theorem c8_nonneg_amended :
    (∀ (k : String) (p : Params) (j : ProviderResponse) (ef : FetchOutcome)
       (entries : List RankedEntry) (ms tc : Nat),
       (GET (some k) p (.success j) ef).result = .done (.listResp entries ms tc) →
       (∀ prof ∈ j.profiles.getD [], ∀ s ∈ prof.scores.getD [],
          s.slug = "creator_score" → 0 ≤ s.points.getD 0) →
       ∀ e ∈ entries, 0 ≤ e.score) ∧
    (∀ prof : Profile, matchingPoints prof = [] → extractScore prof = 0) := by
  constructor
  · intro k p j ef entries ms tc hres hnn e he
    by_cases hs : statsOnlyOf p = true
    · cases ef <;> simp [GET, hs] at hres
    · simp [GET, hs] at hres
      obtain ⟨rfl, _, _⟩ := hres
      have h1 : e.toMappedEntry ∈ sortEntries ((j.profiles.getD []).map mapProfile) :=
        rankEntries_mem he
      have h2 : e.toMappedEntry ∈ (j.profiles.getD []).map mapProfile := by
        rw [sortEntries] at h1
        exact (List.mem_insertionSort scoreGe).mp h1
      rcases List.mem_map.mp h2 with ⟨prof, hprof, hmap⟩
      have hnn2 := extractScore_nonneg (hnn prof hprof)
      have hscore : e.score = extractScore prof := by
        rw [← hmap]
        rfl
      rw [hscore]
      exact hnn2
  · intro prof h
    exact (extractScore_max prof).1 h

/-- Witness for C8 at the one-profile response with points 5. -/
theorem c8_witness :
    (0 : Int) ≤ ({ toMappedEntry := { name := "Ann", pfp := none, score := 5, rewards := "-"
                                      id := "p1", talent_protocol_id := "p1" }
                   rank := 1 } : RankedEntry).score :=
  c8_nonneg_amended.1 "key" emptyParams annResponse .thrown
    [{ toMappedEntry := { name := "Ann", pfp := none, score := 5, rewards := "-"
                          id := "p1", talent_protocol_id := "p1" }
       rank := 1 }] 100 1 (by decide) (by decide) _ (by decide)

/-- C9 counterexample: the non-numeric page parameter abc parses to
NaN, which is passed through to the provider request rather than
defaulting to 1. -/
theorem c9_counterexample :
    pageOf abcParams = none ∧ (none : Option Int) ≠ some 1 ∧
    (GET (some "key") abcParams (.httpError 500 "boom") .thrown).calls
      = [buildListingRequest none (some 25)] := by
  decide

/-- C9 amended: a missing or empty page parameter defaults to 1 and a
missing or empty perPage (accepted first as per_page, then perPage)
defaults to 25, while any non-empty value is parsed with JS parseInt
semantics and passed through unchanged (so a non-numeric value becomes
NaN rather than the default); statsOnly is true exactly when the
parameter equals the string true; no upper bound is enforced, the
parsed pagination reaching the provider request as-is. -/
theorem c9_params_amended :
    ∀ p : Params,
      ((p.page = none ∨ p.page = some "") → pageOf p = some 1) ∧
      ((p.per_page = none ∨ p.per_page = some "") →
         (p.perPage = none ∨ p.perPage = some "") → perPageOf p = some 25) ∧
      (∀ s, p.page = some s → s ≠ "" → pageOf p = parseIntJS s) ∧
      (∀ s, p.per_page = some s → s ≠ "" → perPageOf p = parseIntJS s) ∧
      (∀ s, (p.per_page = none ∨ p.per_page = some "") → p.perPage = some s → s ≠ "" →
         perPageOf p = parseIntJS s) ∧
      (statsOnlyOf p = true ↔ p.statsOnly = some "true") ∧
      (∀ (k : String) (primary ef : FetchOutcome),
         (GET (some k) p primary ef).calls.head?
           = some (buildListingRequest (pageOf p) (perPageOf p))) := by
  intro p
  refine ⟨?_, ?_, ?_, ?_, ?_, ?_, ?_⟩
  · rintro (h | h) <;> simp [pageOf, jsOrStr, h] <;> decide
  · rintro (h | h) (h2 | h2) <;> simp [perPageOf, jsOrStr, h, h2] <;> decide
  · intro s hs hne
    simp [pageOf, jsOrStr, hs, hne]
  · intro s hs hne
    simp [perPageOf, jsOrStr, hs, hne]
  · rintro s (h | h) hs hne <;> simp [perPageOf, jsOrStr, h, hs, hne]
  · simp [statsOnlyOf]
  · intro k primary ef
    cases primary with
    | thrown => rfl
    | httpError st b => rfl
    | success j =>
      by_cases h : statsOnlyOf p = true
      · cases ef <;> simp [GET, h]
      · simp [GET, h]

/-- Witness for C9 at a request with no parameters. -/
theorem c9_witness : pageOf emptyParams = some 1 :=
  (c9_params_amended emptyParams).1 (Or.inl rfl)

/-- C10: in listing mode totalCreators is the provider total when
present and non-zero and the page's entry count otherwise, while in
stats mode a missing total gives totalCreators 0. -/
theorem c10_total_creators :
    ∀ (k : String) (p : Params) (j : ProviderResponse) (ef : FetchOutcome),
      (statsOnlyOf p = false →
        (∀ t : Nat, totalOf j = some t → t ≠ 0 →
           (GET (some k) p (.success j) ef).result
             = .done (.listResp (listingPipeline j) 100 t)) ∧
        ((totalOf j = none ∨ totalOf j = some 0) →
           (GET (some k) p (.success j) ef).result
             = .done (.listResp (listingPipeline j) 100 (listingPipeline j).length))) ∧
      (statsOnlyOf p = true → totalOf j = none →
        ∀ (ms T ec : Nat),
          (GET (some k) p (.success j) ef).result = .done (.statsResp ms T ec) → T = 0) := by
  intro k p j ef
  constructor
  · intro hs
    have hs' : ¬ statsOnlyOf p = true := by simp [hs]
    constructor
    · intro t ht htne
      simp [GET, hs', jsOrNat, ht, htne]
    · rintro (h | h) <;> simp [GET, hs', jsOrNat, h]
  · intro hs ht ms T ec hres
    cases ef <;> simp [GET, hs, jsOrNat, ht] at hres <;> omega

/-- Witness for C10 at an empty listing with provider total 7. -/
theorem c10_witness :
    (GET (some "key") emptyParams (.success total7) .thrown).result
      = .done (.listResp [] 100 7) :=
  ((c10_total_creators "key" emptyParams total7 .thrown).1 (by decide)).1 7 (by decide)
    (by decide)
